import Mathlib

/-!
Verification of the agent-run knowledge base (memory builder / decision layer /
retrieval engine) against its natural-language specification.

The Python sources are shallowly embedded:
* vectors are lists of real numbers; `np.dot` / `np.linalg.norm` become `dot` / `npNorm`;
* float division, which is invalid at a zero denominator, is modelled by
  `pyDiv : ℝ → ℝ → Option ℝ`, so a function that could divide by zero would
  return `none`;
* the Neo4j property graph becomes the `Graph` structure (node lists plus
  relationship lists); Cypher `MERGE`/`SET` statements become explicit graph
  mutations (`Eff` effects applied by `applyEff`);
* LLM and embedding providers are oracles passed in as parameters.
-/

open scoped Classical

namespace KB

/-- Embedding vectors (`List[float]` in the source). -/
abbrev Vec := List ℝ

/-- Model of `np.dot(v1, v2)` on same-length vectors. -/
def dot (v1 v2 : Vec) : ℝ := (List.zipWith (· * ·) v1 v2).sum

/-- Model of `np.linalg.norm(v)`: the Euclidean norm. -/
noncomputable def npNorm (v : Vec) : ℝ := Real.sqrt ((v.map fun x => x ^ 2).sum)

/-- Float division; invalid (modelled as `none`) at a zero denominator. -/
noncomputable def pyDiv (a b : ℝ) : Option ℝ := if b = 0 then none else some (a / b)

/-- Embeds `_cosine_similarity` (identical in `services/decision.py`,
`memory_retrieval.py` and `memory_builder.py`): guard on zero norms returning
`0.0`, otherwise `dot / (norm1 * norm2)`. -/
noncomputable def cosine_similarity (v1 v2 : Vec) : Option ℝ :=
  if npNorm v1 = 0 ∨ npNorm v2 = 0 then some 0
  else pyDiv (dot v1 v2) (npNorm v1 * npNorm v2)

/-- One `{id, type, source_ref}` reference row of an expanded run. -/
structure RefItem where
  id : String
  type : String
  source_ref : String
deriving DecidableEq

/-- One `{id, type, hash}` artifact row of an expanded run. -/
structure ArtItem where
  id : String
  type : String
  hash : String
deriving DecidableEq

/-- The `RelatedRun` pydantic model as built by `MemoryRetrieval.retrieve`
(the optional `user_id` / `reason_added` fields are never set there and stay
`None`; they are omitted). -/
structure RelatedRun where
  run_id : String
  agent_id : String
  summary : String
  outcome : String
  run_tree : Option String
  references : List RefItem
  artifacts : List ArtItem
  similarity_score : ℝ

/-- Python `round(·)` to an integer: round half to even. -/
noncomputable def roundHalfEven (x : ℝ) : ℤ :=
  if Int.fract x < 1 / 2 then ⌊x⌋
  else if 1 / 2 < Int.fract x then ⌊x⌋ + 1
  else if Even ⌊x⌋ then ⌊x⌋ else ⌊x⌋ + 1

/-- Python `round(x, 2)`. -/
noncomputable def roundTo2 (x : ℝ) : ℝ := (roundHalfEven (100 * x) : ℝ) / 100

/-- Embeds `MemoryRetrieval._calculate_confidence`: weighted combination of
result count, mean similarity and outcome consistency (`len(set(outcomes)) == 1`
becomes `eraseDups.length = 1`), rounded to two decimals. -/
noncomputable def calculate_confidence (related_runs : List RelatedRun) : ℝ :=
  if related_runs = [] then 0
  else
    let count_confidence : ℝ := min ((related_runs.length : ℝ) / 5) 1
    let avg_similarity : ℝ :=
      (related_runs.map (fun r => r.similarity_score)).sum / related_runs.length
    let outcome_confidence : ℝ :=
      if (related_runs.map (fun r => r.outcome)).eraseDups.length = 1 then 1 else 0.7
    roundTo2 (0.3 * count_confidence + 0.5 * avg_similarity + 0.2 * outcome_confidence)

/-- A `Task` node as scanned by `_upsert_task` (`WHERE t.embedding IS NOT NULL`
is modelled by the `Option`). -/
structure TaskNode where
  id : String
  text : String
  embedding : Option Vec

/-- Similarity of the new task embedding against one stored task, as computed
inside the `_upsert_task` loop: `none` when the stored embedding is null or has
a different dimension (`len(task_emb) != expected_dim: continue`). -/
noncomputable def simOf (qe : Vec) (t : TaskNode) : Option ℝ :=
  t.embedding.bind fun e =>
    if e.length = qe.length then cosine_similarity qe e else none

/-- One iteration of the best-match loop of `_upsert_task`:
`if similarity >= self.similarity_threshold and similarity > best_similarity`. -/
noncomputable def bestStep (τ : ℝ) (qe : Vec) (acc : Option String × ℝ) (t : TaskNode) :
    Option String × ℝ :=
  match simOf qe t with
  | none => acc
  | some s => if τ ≤ s ∧ acc.2 < s then (some t.id, s) else acc

/-- The whole best-match scan, started from `best_match = None`,
`best_similarity = 0.0`. -/
noncomputable def bestTaskMatch (τ : ℝ) (qe : Vec) (tasks : List TaskNode) :
    Option String × ℝ :=
  tasks.foldl (bestStep τ qe) (none, 0)

/-- Embeds `MemoryBuilder._upsert_task`. `gen` is `_generate_id("task", ·)`
(the sha256-derived content id). After the scan loop the source calls
`result.single()` on the already-iterated cursor; the neo4j driver returns no
record from an exhausted result, so the `if record:` reuse branch is dead and
the create branch runs. Returns the task id and whether a new Task was
created. -/
noncomputable def upsert_task (τ : ℝ) (gen : String → String) (tasks : List TaskNode)
    (task_text : String) (task_embedding : Vec) : String × Bool :=
  match (bestTaskMatch τ task_embedding tasks).1 with
  | some tid => (tid, false)
  | none => (gen task_text, true)

/-- One entry of `MemoryDecision.similar_runs` (the
`{run_id, summary, outcome, similarity}` dict attached by `decide`). -/
structure SRInfo where
  run_id : String
  summary : String
  outcome : String
  similarity : ℝ

/-- The `MemoryDecision` pydantic model (the timestamp is not modelled). -/
structure MemoryDecision where
  run_id : String
  decision : String
  target_run_id : Option String := none
  reason : String
  similarity_score : Option ℝ := none
  similar_runs : Option (List SRInfo) := none

/-- The `SimilarRun` pydantic model used by the decision layer; references and
artifacts are the `(id, type)` pairs returned by `_get_run_details`. -/
structure SimilarRun where
  run_id : String
  summary : String
  outcome : String
  similarity : ℝ
  references : List (String × String)
  artifacts : List (String × String)

/-- A `Run` node with the properties written by `_create_run` and
`_mark_run_superseded`. -/
structure RunNode where
  id : String
  agent_id : String
  summary : String
  embedding : Option Vec
  run_tree : Option String
  created_at : String
  status : Option String
  reason_added : Option String
  superseded_by : Option String

/-- The labelled property graph: node lists per label plus relationship lists
(HAS_AGENT, EXECUTED, TRIGGERED, READS, WRITES, ENDED_WITH). Reference and
Artifact node embeddings are not modelled (nothing reads them back). -/
structure Graph where
  users : List String
  agents : List String
  hasAgent : List (String × String)
  executed : List (String × String)
  tasks : List TaskNode
  runs : List RunNode
  refs : List RefItem
  arts : List ArtItem
  triggered : List (String × String)
  reads : List (String × String)
  writes : List (String × String)
  endedWith : List (String × String)
  decisions : List MemoryDecision

/-- The empty store. -/
def emptyGraph : Graph :=
  { users := [], agents := [], hasAgent := [], executed := [], tasks := [],
    runs := [], refs := [], arts := [], triggered := [], reads := [],
    writes := [], endedWith := [], decisions := [] }

/-- Run status filter `(r.status IS NULL OR r.status = 'active')` shared by
all scans. -/
def isActive (r : RunNode) : Bool := r.status == none || r.status == some "active"

/-- The WHERE clause of `_vector_search_runs`: non-null embedding, active (or
null) status, and — only when `agent_id` is truthy — `r.agent_id = $agent_id`.
There is no user filter in this query. -/
def vsrKeep (aid : Option String) (r : RunNode) : Bool :=
  r.embedding.isSome && isActive r &&
    (match aid with
     | some a => if a = "" then true else r.agent_id == a
     | none => true)

/-- The per-run step of the `_vector_search_runs` loop: skip a stored
embedding whose dimension differs from the query embedding, otherwise compute
cosine similarity (a failed similarity computation is likewise skipped). -/
noncomputable def runSim (qe : Vec) (r : RunNode) : Option (String × ℝ) :=
  r.embedding.bind fun e =>
    if e.length = qe.length then
      (cosine_similarity qe e).map fun s => (r.id, s)
    else none

/-- Stable descending sort by a real-valued key, modelling Python
`list.sort(key=…, reverse=True)`. -/
noncomputable def insertDescBy {α : Type} (key : α → ℝ) (x : α) : List α → List α
  | [] => [x]
  | y :: ys => if key x < key y then y :: insertDescBy key x ys else x :: y :: ys

/-- Stable descending sort by a real-valued key (whole list). -/
noncomputable def sortDescBy {α : Type} (key : α → ℝ) : List α → List α
  | [] => []
  | x :: xs => insertDescBy key x (sortDescBy key xs)

/-- Embeds `MemoryRetrieval._vector_search_runs`: scan Runs with non-null
embedding and active status, optionally filtered by `r.agent_id`; cosine
similarities skipping dimension mismatches; sort descending; take `top_k`. -/
noncomputable def vector_search_runs (g : Graph) (qe : Vec) (top_k : Nat)
    (aid : Option String) : List (String × ℝ) :=
  (sortDescBy (fun p => p.2)
    ((g.runs.filter (vsrKeep aid)).filterMap (runSim qe))).take top_k

/-- Base WHERE clause of `_find_similar_runs` (decision layer): non-null
embedding and active (or null) status. -/
def dlKeepBase (r : RunNode) : Bool := r.embedding.isSome && isActive r

/-- Decision-layer candidates when the `user_id` branch is not taken: via
`Agent{agent_id}-EXECUTED->Run` when `agent_id` is truthy, else all runs. -/
def dlCandidatesNoUser (g : Graph) (aid : Option String) : List RunNode :=
  match aid with
  | some a =>
    if a = "" then g.runs.filter dlKeepBase
    else g.runs.filter fun r =>
      dlKeepBase r && g.executed.any fun q => q.1 == a && q.2 == r.id
  | none => g.runs.filter dlKeepBase

/-- Decision-layer candidate selection of `_find_similar_runs`: with a truthy
`user_id` the traversal `User{user_id}-HAS_AGENT->Agent-EXECUTED->Run`
(restricted to `a.agent_id = $agent_id` when that is truthy); otherwise the
agent-only / unfiltered branches. -/
def dlCandidates (g : Graph) (uid aid : Option String) : List RunNode :=
  match uid with
  | some u =>
    if u = "" then dlCandidatesNoUser g aid
    else g.runs.filter fun r =>
      dlKeepBase r && g.hasAgent.any fun p =>
        p.1 == u &&
        (match aid with
         | some a => if a = "" then true else p.2 == a
         | none => true) &&
        g.executed.any fun q => q.1 == p.2 && q.2 == r.id
  | none => dlCandidatesNoUser g aid

/-- The run outcome read by `_get_run_details` / `_expand_run`: the label of
the first `ENDED_WITH` edge, defaulting to `"unknown"`. -/
def run_details_outcome (g : Graph) (rid : String) : String :=
  match g.endedWith.find? fun p => p.1 == rid with
  | some p => p.2
  | none => "unknown"

/-- The `(id, type)` reference pairs of a run, as returned by
`_get_run_details` (null-id rows from the left join are filtered out). -/
def runRefPairs (g : Graph) (rid : String) : List (String × String) :=
  g.reads.filterMap fun p =>
    if p.1 == rid then
      (g.refs.find? fun ref => ref.id == p.2).map fun ref => (ref.id, ref.type)
    else none

/-- The `(id, type)` artifact pairs of a run, as returned by
`_get_run_details`. -/
def runArtPairs (g : Graph) (rid : String) : List (String × String) :=
  g.writes.filterMap fun p =>
    if p.1 == rid then
      (g.arts.find? fun art => art.id == p.2).map fun art => (art.id, art.type)
    else none

/-- Builds the `SimilarRun` record for one kept decision-layer candidate. -/
noncomputable def mkSimilarRun (g : Graph) (r : RunNode) (s : ℝ) : SimilarRun :=
  { run_id := r.id, summary := r.summary, outcome := run_details_outcome g r.id,
    similarity := s, references := runRefPairs g r.id,
    artifacts := runArtPairs g r.id }

/-- The per-candidate step of the `_find_similar_runs` loop: skip a stored
embedding of mismatched dimension, compute cosine similarity and keep the
candidate only at similarity `≥ 0.7` (`LOW_SIMILARITY_THRESHOLD`). -/
noncomputable def dlSim (g : Graph) (qe : Vec) (r : RunNode) : Option SimilarRun :=
  r.embedding.bind fun e =>
    if e.length = qe.length then
      (cosine_similarity qe e).bind fun s =>
        if (0.7 : ℝ) ≤ s then some (mkSimilarRun g r s) else none
    else none

/-- Embeds `DecisionLayer._find_similar_runs`: partitioned candidates, cosine
similarities skipping dimension mismatches, keep those `≥ 0.7`, sort
descending, take `top_k`. -/
noncomputable def find_similar_runs (g : Graph) (qe : Vec) (top_k : Nat)
    (aid uid : Option String) : List SimilarRun :=
  (sortDescBy (fun sr => sr.similarity)
    ((dlCandidates g uid aid).filterMap (dlSim g qe))).take top_k

/-- The full per-run expansion built by `_expand_run`, before the similarity
score is attached. -/
structure ExpandedRun where
  run_id : String
  agent_id : String
  summary : String
  outcome : String
  run_tree : Option String
  references : List RefItem
  artifacts : List ArtItem

/-- The reference rows of a run as expanded by `_expand_run` (id, type,
source_ref; null-id rows filtered). -/
def runRefItems (g : Graph) (rid : String) : List RefItem :=
  g.reads.filterMap fun p =>
    if p.1 == rid then g.refs.find? fun ref => ref.id == p.2 else none

/-- The artifact rows of a run as expanded by `_expand_run`. -/
def runArtItems (g : Graph) (rid : String) : List ArtItem :=
  g.writes.filterMap fun p =>
    if p.1 == rid then g.arts.find? fun art => art.id == p.2 else none

/-- Embeds `MemoryRetrieval._expand_run`: `none` when the run node is absent,
otherwise its fields together with references, artifacts and outcome. The
stored `run_tree` JSON string is kept opaque. -/
def expand_run (g : Graph) (rid : String) : Option ExpandedRun :=
  match g.runs.find? fun r => r.id == rid with
  | none => none
  | some r =>
    some { run_id := r.id, agent_id := r.agent_id, summary := r.summary,
           outcome := run_details_outcome g r.id, run_tree := r.run_tree,
           references := runRefItems g r.id, artifacts := runArtItems g r.id }

/-- The `RetrievalRequest` pydantic model. -/
structure RetrievalRequest where
  task_text : String
  user_id : Option String := none
  agent_id : Option String := none
  context : Option String := none
  top_k : Nat := 5

/-- The `RetrievalResponse` model restricted to the fields the claims refer to
(the human-readable `observations` strings of `_analyze_patterns` are not
modelled). -/
structure RetrievalResponse where
  related_runs : List RelatedRun
  confidence : ℝ
  query_embedding : Vec

/-- Embeds `MemoryRetrieval.retrieve`: embed `context or task_text`, vector
search (note: only `request.top_k` and `request.agent_id` are passed on —
`request.user_id` is never consulted), expand each hit, compute confidence. -/
noncomputable def retrieve (embed : String → Vec) (g : Graph)
    (req : RetrievalRequest) : RetrievalResponse :=
  let query_text :=
    match req.context with
    | some c => if c = "" then req.task_text else c
    | none => req.task_text
  let qe := embed query_text
  let sims := vector_search_runs g qe req.top_k req.agent_id
  let related := sims.filterMap fun p =>
    (expand_run g p.1).map fun ex =>
      { run_id := ex.run_id, agent_id := ex.agent_id, summary := ex.summary,
        outcome := ex.outcome, run_tree := ex.run_tree,
        references := ex.references, artifacts := ex.artifacts,
        similarity_score := p.2 : RelatedRun }
  { related_runs := related, confidence := calculate_confidence related,
    query_embedding := qe }

/-- One row of the dict list built by `MemoryRetrieval.retrieve_all`. Note the
built dict has no `reason_added` key (the Cypher query never returns
`r.reason_added`). -/
structure RunDetailRow where
  run_id : String
  agent_id : String
  summary : String
  outcome : String
  run_tree : Option String
  references : List RefItem
  artifacts : List ArtItem
  created_at : Option String
deriving DecidableEq

/-- WHERE clause of `retrieve_all`: active (or null) status plus the optional
agent filter (truthy `agent_id` only). -/
def raKeep (aid : Option String) (r : RunNode) : Bool :=
  isActive r &&
    (match aid with
     | some a => if a = "" then true else r.agent_id == a
     | none => true)

/-- Stable descending sort on `created_at`, modelling
`ORDER BY r.created_at DESC`. -/
def insertCreatedDesc (x : RunNode) : List RunNode → List RunNode
  | [] => [x]
  | y :: ys =>
    if x.created_at < y.created_at then y :: insertCreatedDesc x ys
    else x :: y :: ys

/-- Whole-list descending sort on `created_at`. -/
def sortByCreatedDesc : List RunNode → List RunNode
  | [] => []
  | x :: xs => insertCreatedDesc x (sortByCreatedDesc xs)

/-- Builds one `retrieve_all` row (`if record["created_at"]:` means an empty
string also yields `None`). -/
def mkRunDetailRow (g : Graph) (r : RunNode) : RunDetailRow :=
  { run_id := r.id, agent_id := r.agent_id, summary := r.summary,
    outcome := run_details_outcome g r.id, run_tree := r.run_tree,
    references := runRefItems g r.id, artifacts := runArtItems g r.id,
    created_at := if r.created_at = "" then none else some r.created_at }

/-- Embeds `MemoryRetrieval.retrieve_all(agent_id=None, limit=None)`: status
and optional agent filter, ordered by `created_at` descending, optional LIMIT
(`if limit` is Python-truthy, so `limit=0` disables the clause). The method
signature has no `user_id` parameter. -/
def retrieve_all (g : Graph) (aid : Option String) (lim : Option Nat) :
    List RunDetailRow :=
  let rows := (sortByCreatedDesc (g.runs.filter (raKeep aid))).map (mkRunDetailRow g)
  match lim with
  | some n => if n = 0 then rows else rows.take n
  | none => rows

/-- The `RunDetail` pydantic model returned by the `/retrieve_all` endpoint. -/
structure RunDetail where
  run_id : String
  user_id : Option String
  agent_id : Option String
  summary : String
  reason_added : Option String
  outcome : String
  run_tree : Option String
  references : List RefItem
  artifacts : List ArtItem
  created_at : Option String
deriving DecidableEq

/-- Keyword parameters accepted by the `MemoryRetrieval.retrieve_all` method
definition (`def retrieve_all(self, agent_id=None, limit=None)`). -/
def retrieve_all_accepted_kwargs : List String := ["agent_id", "limit"]

/-- Keyword arguments passed at the `api.py` call site
(`retrieval.retrieve_all(user_id=user_id, agent_id=agent_id, limit=limit)`);
the keywords are present syntactically whatever the values are. -/
def retrieve_all_call_kwargs : List String := ["user_id", "agent_id", "limit"]

/-- Embeds the `GET /retrieve_all` handler `retrieve_all_runs` of `api.py`.
Python raises `TypeError` when a call passes a keyword argument the callee
does not declare, before the body runs; this keyword check is modelled
explicitly. On success each returned dict row is converted to `RunDetail`
with `run.get("user_id")` / `run.get("reason_added")`, which yield `None`
because the rows carry no such keys. -/
def api_retrieve_all (g : Graph) (user_id agent_id : Option String)
    (lim : Option Nat) : Except String (List RunDetail) :=
  if retrieve_all_call_kwargs.all (fun k => retrieve_all_accepted_kwargs.contains k) then
    .ok ((retrieve_all g agent_id lim).map fun row =>
      { run_id := row.run_id, user_id := none, agent_id := some row.agent_id,
        summary := row.summary, reason_added := none, outcome := row.outcome,
        run_tree := row.run_tree, references := row.references,
        artifacts := row.artifacts, created_at := row.created_at })
  else
    .error ((("TypeError: retrieve_all() got an unexpected keyword argument " ++
      "user_id; handler arguments were user_id=") ++
      (user_id.getD "None" ++ ", agent_id=" ++ agent_id.getD "None")))

/-- The fields extracted from a successfully parsed LLM decision JSON. -/
structure ParsedDecision where
  decision : String
  target_run_id : Option String
  reason : String

/-- Head similarity used for `similarity_score`
(`similar_runs[0].similarity if similar_runs else None`). -/
def headSimilarity : List SimilarRun → Option ℝ
  | [] => none
  | sr :: _ => some sr.similarity

/-- Post-validation of the parsed decision (`_llm_judge`): uppercase the
decision; map `"null"` / `""` targets to null; coerce unknown decisions to
ADD; for REPLACE/MERGE without a target use the top candidate or fall back to
ADD. -/
def validateDecision (pd : ParsedDecision) (similar_runs : List SimilarRun) :
    MemoryDecision :=
  let d0 := pd.decision.toUpper
  let t0 : Option String :=
    match pd.target_run_id with
    | some t => if t = "null" || t = "" then none else some t
    | none => none
  let d1 := if d0 = "ADD" || d0 = "NOT" || d0 = "REPLACE" || d0 = "MERGE" then d0 else "ADD"
  let dt : String × Option String :=
    if (d1 = "REPLACE" || d1 = "MERGE") && t0.isNone then
      match similar_runs with
      | sr :: _ => (d1, some sr.run_id)
      | [] => ("ADD", none)
    else (d1, t0)
  { run_id := "", decision := dt.1, target_run_id := dt.2, reason := pd.reason,
    similarity_score := headSimilarity similar_runs, similar_runs := none }

/-- Embeds `DecisionLayer._llm_judge`. The LLM call (`make_decision`) and the
fence-stripping / brace-balancing / regex-rescue JSON recovery are oracles:
`llmCall` is the raw call outcome and `parse` the recovery chain, returning
extracted fields or the error it raised. The two `except` fallbacks wrapping
them are embedded exactly as in the source. -/
def llm_judge (llmCall : Except String String)
    (parse : String → Except String ParsedDecision)
    (similar_runs : List SimilarRun) : MemoryDecision :=
  match llmCall with
  | .error e =>
    { run_id := "", decision := "ADD", target_run_id := none,
      reason := "Error calling LLM: " ++ e ++ ". Defaulting to ADD.",
      similarity_score := headSimilarity similar_runs, similar_runs := none }
  | .ok raw =>
    match parse raw with
    | .error e =>
      { run_id := "", decision := "ADD", target_run_id := none,
        reason := "Error in LLM decision: " ++ e ++ ". Defaulting to ADD.",
        similarity_score := headSimilarity similar_runs, similar_runs := none }
    | .ok pd => validateDecision pd similar_runs

/-- A run payload after the accessor normalization of `RunPayload`
(`get_task_text`, `get_run_tree` serialized, `get_outcome`,
`get_created_at` rendered ISO). -/
structure Payload where
  run_id : String
  agent_id : String
  user_id : Option String
  task_text : String
  outcome : String
  run_tree : String
  created_at : String

/-- The result dict of `MemoryBuilder.process_run`; keys that a branch does
not set stay `none`. -/
structure PRResult where
  success : Bool
  decision : String := ""
  run_id : Option String := none
  task_id : Option String := none
  references_count : Option Nat := none
  artifacts_count : Option Nat := none
  target_run_id : Option String := none
  reason : Option String := none
  summary : Option String := none
  reason_added : Option String := none
  message : Option String := none
  similarity_score : Option ℝ := none
  similar_runs : Option (List SRInfo) := none
  error : Option String := none

/-- One graph mutation issued by the builder, in program order. Each
constructor corresponds to one Cypher `MERGE`/`SET` statement. -/
inductive Eff where
  | mergeUser (user_id : String)
  | mergeAgent (agent_id : String)
  | mergeHasAgent (user_id agent_id : String)
  | mergeTask (id text : String) (embedding : Vec)
  | mergeReference (ref : RefItem)
  | mergeArtifact (art : ArtItem)
  | markSuperseded (old_run_id new_run_id : String)
  | mergeRunNode (props : RunNode)
  | mergeTriggered (task_id run_id : String)
  | mergeExecuted (agent_id run_id : String)
  | mergeReads (run_id ref_id : String)
  | mergeWrites (run_id art_id : String)
  | mergeEndedWith (run_id outcome : String)
  | mergeDecision (d : MemoryDecision)

/-- True for the mutations that `process_run` issues before the admission
decision is branched on (User/Agent/HAS_AGENT upserts of step 0 and the Task
upsert of step 1). -/
def Eff.isPreDecision : Eff → Bool
  | .mergeUser _ => true
  | .mergeAgent _ => true
  | .mergeHasAgent _ _ => true
  | .mergeTask _ _ _ => true
  | _ => false

/-- True exactly for `markSuperseded` mutations. -/
def Eff.isMarkSup : Eff → Bool
  | .markSuperseded _ _ => true
  | _ => false

/-- True exactly for Run-node creation mutations. -/
def Eff.isMergeRunNode : Eff → Bool
  | .mergeRunNode _ => true
  | _ => false

/-- Python truthiness of `payload.user_id` (`if user_id:`): `None` and the
empty string both disable the user branch. -/
def uidOptOf (p : Payload) : Option String :=
  match p.user_id with
  | some u => if u = "" then none else some u
  | none => none

/-- Step 0 of `process_run`: `_upsert_user` (when user_id is truthy) and
`_upsert_agent` (Agent merge, plus the HAS_AGENT link when user_id is
truthy). -/
def step0Effs (p : Payload) : List Eff :=
  (match uidOptOf p with | some u => [Eff.mergeUser u] | none => [])
  ++ [Eff.mergeAgent p.agent_id]
  ++ (match uidOptOf p with | some u => [Eff.mergeHasAgent u p.agent_id] | none => [])

/-- The ordered mutations of `MemoryBuilder._create_run`: the Run node
`MERGE`+`SET`, then TRIGGERED, EXECUTED, READS, WRITES and ENDED_WITH edges.
The `superseded_by` component of the recorded properties is a placeholder:
`applyEff` ignores it, because the Cypher `SET` never touches
`r.superseded_by`. -/
def create_run_effects (p : Payload) (summary : String) (semb : Vec)
    (task_id : String) (reference_ids artifact_ids : List String)
    (status : String) (ra : String) : List Eff :=
  [Eff.mergeRunNode
      { id := p.run_id, agent_id := p.agent_id, summary := summary,
        embedding := some semb, run_tree := some p.run_tree,
        created_at := p.created_at, status := some status,
        reason_added := some ra, superseded_by := none },
   Eff.mergeTriggered task_id p.run_id,
   Eff.mergeExecuted p.agent_id p.run_id]
  ++ reference_ids.map (Eff.mergeReads p.run_id)
  ++ artifact_ids.map (Eff.mergeWrites p.run_id)
  ++ [Eff.mergeEndedWith p.run_id p.outcome]

/-- Embeds `MemoryBuilder.process_run` as the pair of its result dict and the
ordered list of graph mutations it issues. The LLM summarizer
(`summary`, `reason_added0`), the embedding port (`taskEmb`, `semb`), the
extractor output (`refs`, `arts`) and the decision layer's LLM-driven output
(`decision`, whose `run_id` the layer has already set) are oracles passed as
parameters; the pipeline order, the branch on the decision and every store
mutation follow the source. `g` supplies the Task store scanned by
`_upsert_task`; `gen` is `_generate_id("task", ·)`. -/
noncomputable def process_run (τ : ℝ) (gen : String → String) (g : Graph)
    (p : Payload) (taskEmb : Vec) (summary reason_added0 : String) (semb : Vec)
    (refs : List RefItem) (arts : List ArtItem) (decision : MemoryDecision) :
    PRResult × List Eff :=
  let step0 : List Eff := step0Effs p
  if p.task_text = "" then
    ({ success := false,
       error := some "task_text or user_task must be provided" }, step0)
  else
    let tRes := upsert_task τ gen g.tasks p.task_text taskEmb
    let taskEffs : List Eff :=
      if tRes.2 then [Eff.mergeTask tRes.1 p.task_text taskEmb] else []
    if decision.decision = "NOT" then
      ({ success := true, decision := "NOT", reason := some decision.reason,
         message := some "Run not added to memory (redundant or low value)",
         similarity_score := decision.similarity_score,
         similar_runs :=
           match decision.similar_runs with
           | some l => if l = [] then none else some l
           | none => none },
       step0 ++ taskEffs ++ [Eff.mergeDecision decision])
    else
      let refEffs := refs.map Eff.mergeReference
      let artEffs := arts.map Eff.mergeArtifact
      let supEffs : List Eff :=
        if decision.decision = "REPLACE" then
          match decision.target_run_id with
          | some t => if t = "" then [] else [Eff.markSuperseded t p.run_id]
          | none => []
        else []
      let ra :=
        if reason_added0.trim = "" then
          "â€¢ Run added to memory for future retrieval."
        else reason_added0
      let runEffs := create_run_effects p summary semb tRes.1
        (refs.map fun r => r.id) (arts.map fun a => a.id) "active" ra
      ({ success := true, decision := decision.decision,
         run_id := some p.run_id, task_id := some tRes.1,
         references_count := some refs.length,
         artifacts_count := some arts.length,
         target_run_id := decision.target_run_id,
         reason := some decision.reason, summary := some summary,
         reason_added := some ra },
       step0 ++ taskEffs ++ refEffs ++ artEffs ++ supEffs ++ runEffs
         ++ [Eff.mergeDecision decision])

/-- Cypher MERGE of one relationship: create-if-absent. -/
def mergePair (l : List (String × String)) (x : String × String) :
    List (String × String) :=
  if l.contains x then l else l ++ [x]

/-- Applies one mutation to the graph. `MERGE (n {id}) SET …` updates the
listed properties of an existing node and creates the node otherwise; in
particular `mergeRunNode` preserves the `superseded_by` of an existing Run
(the `SET` of `_create_run` does not mention it) and leaves it null on a
fresh node. -/
def applyEff (g : Graph) : Eff → Graph
  | .mergeUser u =>
    if g.users.contains u then g else { g with users := g.users ++ [u] }
  | .mergeAgent a =>
    if g.agents.contains a then g else { g with agents := g.agents ++ [a] }
  | .mergeHasAgent u a => { g with hasAgent := mergePair g.hasAgent (u, a) }
  | .mergeTask tid text emb =>
    if g.tasks.any fun t => t.id == tid then
      { g with tasks := g.tasks.map fun t =>
          if t.id == tid then { t with text := text, embedding := some emb } else t }
    else { g with tasks := g.tasks ++ [⟨tid, text, some emb⟩] }
  | .mergeReference ref =>
    if g.refs.any fun r => r.id == ref.id then
      { g with refs := g.refs.map fun r => if r.id == ref.id then ref else r }
    else { g with refs := g.refs ++ [ref] }
  | .mergeArtifact art =>
    if g.arts.any fun a => a.id == art.id then
      { g with arts := g.arts.map fun a => if a.id == art.id then art else a }
    else { g with arts := g.arts ++ [art] }
  | .markSuperseded old_id new_id =>
    { g with runs := g.runs.map fun r =>
        if r.id == old_id then
          { r with status := some "superseded", superseded_by := some new_id }
        else r }
  | .mergeRunNode props =>
    if g.runs.any fun r => r.id == props.id then
      { g with runs := g.runs.map fun r =>
          if r.id == props.id then { props with superseded_by := r.superseded_by }
          else r }
    else { g with runs := g.runs ++ [{ props with superseded_by := none }] }
  | .mergeTriggered t r => { g with triggered := mergePair g.triggered (t, r) }
  | .mergeExecuted a r => { g with executed := mergePair g.executed (a, r) }
  | .mergeReads r ref => { g with reads := mergePair g.reads (r, ref) }
  | .mergeWrites r a => { g with writes := mergePair g.writes (r, a) }
  | .mergeEndedWith r o => { g with endedWith := mergePair g.endedWith (r, o) }
  | .mergeDecision d =>
    if g.decisions.any fun d0 => d0.run_id == d.run_id then
      { g with decisions := g.decisions.map fun d0 =>
          if d0.run_id == d.run_id then d else d0 }
    else { g with decisions := g.decisions ++ [d] }

/-- Applies a mutation list in order. -/
def applyTrace (g : Graph) (tr : List Eff) : Graph := tr.foldl applyEff g

/-- The run/superseded-pointer consistency invariant of the specification:
`status = superseded` iff `superseded_by` is non-null. -/
def supersededInv (r : RunNode) : Prop :=
  r.status = some "superseded" ↔ r.superseded_by ≠ none

/-- Task-id generator used in the concrete scenarios (stands in for the
sha256-derived `_generate_id("task", ·)`). -/
def genTaskId (s : String) : String := "task_" ++ s

/-- Run r1 as stored under user u1 / agent A for the partition scenarios. -/
def r1Node : RunNode :=
  { id := "r1", agent_id := "A", summary := "indexed a PDF corpus",
    embedding := some [1], run_tree := some "tree", created_at := "2025-01-01",
    status := some "active", reason_added := some "valuable",
    superseded_by := none }

/-- Store holding r1 under `(u1, A)` (User/Agent nodes, HAS_AGENT and
EXECUTED edges, ENDED_WITH success). -/
def gPartition : Graph :=
  { users := ["u1"], agents := ["A"], hasAgent := [("u1", "A")],
    executed := [("A", "r1")], tasks := [], runs := [r1Node], refs := [],
    arts := [], triggered := [], reads := [], writes := [],
    endedWith := [("r1", "success")], decisions := [] }

/-- Retrieval request issued by user u2 against agent A. -/
def reqU2A : RetrievalRequest :=
  { task_text := "index a PDF corpus", user_id := some "u2",
    agent_id := some "A", context := none, top_k := 5 }

/-- Run holding an embedding opposite to the query embedding (cosine −1). -/
def rNegNode : RunNode :=
  { id := "rneg", agent_id := "A", summary := "opposite direction",
    embedding := some [-1], run_tree := none, created_at := "2025-01-02",
    status := some "active", reason_added := none, superseded_by := none }

/-- Store holding only `rNegNode`. -/
def gNeg : Graph :=
  { users := [], agents := ["A"], hasAgent := [], executed := [("A", "rneg")],
    tasks := [], runs := [rNegNode], refs := [], arts := [], triggered := [],
    reads := [], writes := [], endedWith := [("rneg", "failure")],
    decisions := [] }

/-- Retrieval request used for the confidence counterexample. -/
def reqNeg : RetrievalRequest :=
  { task_text := "anything", user_id := none, agent_id := none,
    context := none, top_k := 5 }

/-- Payload of run r2 replacing r1. -/
def p2Replace : Payload :=
  { run_id := "r2", agent_id := "A", user_id := some "u1",
    task_text := "index a PDF corpus", outcome := "success",
    run_tree := "tree", created_at := "2025-01-03" }

/-- REPLACE decision targeting r1 (as produced by the decision layer). -/
def dReplaceR1 : MemoryDecision :=
  { run_id := "r2", decision := "REPLACE", target_run_id := some "r1",
    reason := "better version", similarity_score := some 1,
    similar_runs := none }

/-- Payload of run r1 (first and third ingestion of the invariant scenario;
the task embeddings are chosen with pairwise distinct dimensions so every
ingestion creates a fresh Task). -/
def p1Add : Payload :=
  { run_id := "r1", agent_id := "A", user_id := none, task_text := "t1",
    outcome := "failure", run_tree := "tree", created_at := "2025-01-01" }

/-- ADD decision for the first ingestion. -/
def dAdd1 : MemoryDecision :=
  { run_id := "r1", decision := "ADD", target_run_id := none,
    reason := "No similar runs found in memory", similarity_score := none,
    similar_runs := none }

/-- Payload of the replacing run in the invariant scenario. -/
def p2Inv : Payload :=
  { run_id := "r2", agent_id := "A", user_id := none, task_text := "t2",
    outcome := "success", run_tree := "tree", created_at := "2025-01-02" }

/-- Payload re-ingesting run id r1 after it was superseded. -/
def p3Inv : Payload :=
  { run_id := "r1", agent_id := "A", user_id := none, task_text := "t3",
    outcome := "success", run_tree := "tree", created_at := "2025-01-04" }

/-- ADD decision for the re-ingestion of r1 (reachable e.g. through the
fail-open path of the decision layer). -/
def dAdd3 : MemoryDecision :=
  { run_id := "r1", decision := "ADD", target_run_id := none,
    reason := "Error calling LLM: timeout. Defaulting to ADD.",
    similarity_score := some 1, similar_runs := none }

/-- Graph after ingesting r1 (ADD). -/
noncomputable def gInv1 : Graph :=
  applyTrace emptyGraph
    (process_run 0.85 genTaskId emptyGraph p1Add [1] "sum1" "ra1" [1] [] [] dAdd1).2

/-- Graph after additionally ingesting r2 (REPLACE of r1). -/
noncomputable def gInv2 : Graph :=
  applyTrace gInv1
    (process_run 0.85 genTaskId gInv1 p2Inv [1, 1] "sum2" "ra2" [1] [] [] dReplaceR1).2

/-- Graph after re-ingesting run id r1 (ADD) while it is superseded. -/
noncomputable def gInv3 : Graph :=
  applyTrace gInv2
    (process_run 0.85 genTaskId gInv2 p3Inv [1, 1, 1] "sum3" "ra3" [1] [] [] dAdd3).2

/-- Store for the NOT-decision scenario: agent a1 exists with an earlier
similar run r0 (stored without a user), user u2 is new. -/
def gNot : Graph :=
  { users := [], agents := ["a1"], hasAgent := [],
    executed := [("a1", "r0")], tasks := [],
    runs := [{ id := "r0", agent_id := "a1", summary := "earlier run",
               embedding := some [1], run_tree := none,
               created_at := "2025-01-01", status := some "active",
               reason_added := none, superseded_by := none }],
    refs := [], arts := [], triggered := [], reads := [], writes := [],
    endedWith := [("r0", "success")], decisions := [] }

/-- Payload of the run judged NOT, submitted by the new user u2. -/
def pNot : Payload :=
  { run_id := "r9", agent_id := "a1", user_id := some "u2",
    task_text := "near identical task", outcome := "success",
    run_tree := "tree", created_at := "2025-01-05" }

/-- NOT decision with the similar-run context attached by `decide`. -/
def dNot : MemoryDecision :=
  { run_id := "r9", decision := "NOT", target_run_id := none,
    reason := "redundant", similarity_score := some 1,
    similar_runs := some [⟨"r0", "earlier run", "success", 1⟩] }

/-- A run stored with an embedding dimension (2) different from the query
dimension (1), for the dimension-mismatch scenarios. -/
def rBadNode : RunNode :=
  { id := "rbad", agent_id := "A", summary := "stored at another dimension",
    embedding := some [1, 2], run_tree := none, created_at := "2025-01-02",
    status := some "active", reason_added := none, superseded_by := none }

/-- Store holding r1 (dimension 1) and rbad (dimension 2) under agent A. -/
def gMix : Graph :=
  { users := ["u1"], agents := ["A"], hasAgent := [("u1", "A")],
    executed := [("A", "r1"), ("A", "rbad")], tasks := [],
    runs := [r1Node, rBadNode], refs := [], arts := [], triggered := [],
    reads := [], writes := [], endedWith := [("r1", "success")],
    decisions := [] }

/-- Keeps a run with a null embedding or an embedding of the query dimension;
drops runs whose stored dimension differs. -/
def sameDimB (qe : Vec) (r : RunNode) : Bool :=
  match r.embedding with
  | some e => e.length == qe.length
  | none => true

/-- The graph with mismatched-dimension runs removed. -/
def dropMismatched (qe : Vec) (g : Graph) : Graph :=
  { g with runs := g.runs.filter (sameDimB qe) }

end KB

namespace KB

theorem npNorm_nonneg (v : Vec) : 0 ≤ npNorm v := Real.sqrt_nonneg _

/-- C10: the shared cosine-similarity helper is total on same-length vectors:
it always returns a value (never an invalid division), and whenever either
input has zero norm it returns `0.0`. -/
theorem cosine_similarity_total (v1 v2 : Vec) (h : v1.length = v2.length) :
    (cosine_similarity v1 v2).isSome = true ∧
      ((npNorm v1 = 0 ∨ npNorm v2 = 0) → cosine_similarity v1 v2 = some 0) := by
  constructor
  · unfold cosine_similarity
    by_cases hz : npNorm v1 = 0 ∨ npNorm v2 = 0
    · simp [hz]
    · push_neg at hz
      have h1 : 0 < npNorm v1 := lt_of_le_of_ne (npNorm_nonneg v1) (Ne.symm hz.1)
      have h2 : 0 < npNorm v2 := lt_of_le_of_ne (npNorm_nonneg v2) (Ne.symm hz.2)
      have hprod : npNorm v1 * npNorm v2 ≠ 0 := ne_of_gt (mul_pos h1 h2)
      simp [hz.1, hz.2, pyDiv, hprod]
  · intro hz
    simp [cosine_similarity, hz]

/-- Witness for `cosine_similarity_total` at the concrete zero vector `[0]`
against `[5]`. -/
theorem cosine_similarity_total_witness :
    ([0] : Vec).length = ([5] : Vec).length ∧
      ((cosine_similarity [0] [5]).isSome = true ∧
        ((npNorm [0] = 0 ∨ npNorm [5] = 0) → cosine_similarity [0] [5] = some 0)) :=
  ⟨rfl, cosine_similarity_total [0] [5] rfl⟩

theorem roundHalfEven_ge_floor (x : ℝ) : ⌊x⌋ ≤ roundHalfEven x := by
  unfold roundHalfEven
  split_ifs <;> omega

theorem roundHalfEven_le_floor_add_one (x : ℝ) : roundHalfEven x ≤ ⌊x⌋ + 1 := by
  unfold roundHalfEven
  split_ifs <;> omega

theorem roundHalfEven_intCast (n : ℤ) : roundHalfEven (n : ℝ) = n := by
  unfold roundHalfEven
  rw [Int.fract_intCast, Int.floor_intCast]
  norm_num

theorem roundTo2_int_div (n : ℤ) : roundTo2 ((n : ℝ) / 100) = (n : ℝ) / 100 := by
  have h : (100 : ℝ) * ((n : ℝ) / 100) = (n : ℝ) := by ring
  unfold roundTo2
  rw [h, roundHalfEven_intCast]

theorem roundTo2_pos_le_one (x : ℝ) (h1 : 1 / 5 ≤ x) (h2 : x ≤ 1) :
    0 < roundTo2 x ∧ roundTo2 x ≤ 1 := by
  have hy1 : (20 : ℝ) ≤ 100 * x := by linarith
  have hy2 : 100 * x ≤ 100 := by linarith
  have hfl : (20 : ℤ) ≤ ⌊(100 : ℝ) * x⌋ := by
    have := Int.le_floor.mpr (by exact_mod_cast hy1 : ((20 : ℤ) : ℝ) ≤ 100 * x)
    exact this
  have hfu : ⌊(100 : ℝ) * x⌋ ≤ 100 := by
    have h := Int.floor_le_floor hy2
    simpa using h
  have hlow : (20 : ℤ) ≤ roundHalfEven (100 * x) :=
    le_trans hfl (roundHalfEven_ge_floor _)
  have hup : roundHalfEven (100 * x) ≤ 100 := by
    rcases lt_or_eq_of_le hfu with hlt | heq
    · have := roundHalfEven_le_floor_add_one (100 * x)
      omega
    · -- floor = 100 together with 100·x ≤ 100 forces 100·x = 100 exactly
      have hxe : (100 : ℝ) * x = 100 := by
        have hle : ((100 : ℤ) : ℝ) ≤ 100 * x := by
          rw [← heq]; exact Int.floor_le _
        have : (100 : ℝ) ≤ 100 * x := by exact_mod_cast hle
        linarith
      rw [hxe]
      have : roundHalfEven ((100 : ℝ)) = roundHalfEven (((100 : ℤ) : ℝ)) := by norm_num
      rw [this, roundHalfEven_intCast]
  constructor
  · unfold roundTo2
    have : (0 : ℝ) < (roundHalfEven (100 * x) : ℝ) := by
      have : (0 : ℤ) < roundHalfEven (100 * x) := by omega
      exact_mod_cast this
    positivity
  · unfold roundTo2
    have : (roundHalfEven (100 * x) : ℝ) ≤ 100 := by exact_mod_cast hup
    linarith

/-- C6 (amended): the retrieval confidence equals
`round₂(0.3·min(n/5,1) + 0.5·mean(similarity) + 0.2·(1 if all outcomes equal
else 0.7))`, it is `0.0` on the empty survivor list, and for a non-empty
survivor list whose similarity scores all lie in `[0,1]` it lies in `(0,1]`.
(The unamended range clause fails for negative similarity scores, see the
counterexample.) -/
theorem calculate_confidence_spec (runs : List RelatedRun) (hne : runs ≠ [])
    (hs : ∀ r ∈ runs, 0 ≤ r.similarity_score ∧ r.similarity_score ≤ 1) :
    calculate_confidence runs =
      roundTo2 (0.3 * min ((runs.length : ℝ) / 5) 1
        + 0.5 * ((runs.map (fun r => r.similarity_score)).sum / runs.length)
        + 0.2 * (if (runs.map (fun r => r.outcome)).eraseDups.length = 1 then 1 else 0.7))
    ∧ calculate_confidence [] = 0
    ∧ (0 < calculate_confidence runs ∧ calculate_confidence runs ≤ 1) := by
  refine ⟨by simp [calculate_confidence, hne], by simp [calculate_confidence], ?_⟩
  have hn : 0 < runs.length := List.length_pos.mpr hne
  have hnR : (0 : ℝ) < (runs.length : ℝ) := by exact_mod_cast hn
  set n : ℝ := (runs.length : ℝ) with hndef
  have hcc1 : (1 : ℝ) / 5 ≤ min (n / 5) 1 := by
    have h1 : (1 : ℝ) ≤ n := by
      have hone : (1 : ℕ) ≤ runs.length := hn
      rw [hndef]
      exact_mod_cast hone
    have : (1 : ℝ) / 5 ≤ n / 5 := by linarith
    exact le_min this (by norm_num)
  have hcc2 : min (n / 5) 1 ≤ 1 := min_le_right _ _
  have hsum0 : (0 : ℝ) ≤ (runs.map (fun r => r.similarity_score)).sum := by
    apply List.sum_nonneg
    intro x hx
    rcases List.mem_map.mp hx with ⟨r, hr, rfl⟩
    exact (hs r hr).1
  have hsum1 : (runs.map (fun r => r.similarity_score)).sum ≤ n := by
    have h := List.sum_le_card_nsmul (runs.map (fun r => r.similarity_score)) 1 ?_
    · simpa [hndef, nsmul_eq_mul] using h
    · intro x hx
      rcases List.mem_map.mp hx with ⟨r, hr, rfl⟩
      exact (hs r hr).2
  have havg0 : (0 : ℝ) ≤ (runs.map (fun r => r.similarity_score)).sum / n :=
    div_nonneg hsum0 (le_of_lt hnR)
  have havg1 : (runs.map (fun r => r.similarity_score)).sum / n ≤ 1 :=
    (div_le_one hnR).mpr hsum1
  have hout : (7 : ℝ) / 10 ≤ (if (runs.map (fun r => r.outcome)).eraseDups.length = 1
      then (1 : ℝ) else 0.7) ∧
      (if (runs.map (fun r => r.outcome)).eraseDups.length = 1 then (1 : ℝ) else 0.7) ≤ 1 := by
    split_ifs <;> norm_num
  have key : (1 : ℝ) / 5 ≤ 0.3 * min (n / 5) 1
        + 0.5 * ((runs.map (fun r => r.similarity_score)).sum / n)
        + 0.2 * (if (runs.map (fun r => r.outcome)).eraseDups.length = 1 then 1 else 0.7) ∧
      0.3 * min (n / 5) 1
        + 0.5 * ((runs.map (fun r => r.similarity_score)).sum / n)
        + 0.2 * (if (runs.map (fun r => r.outcome)).eraseDups.length = 1 then 1 else 0.7) ≤ 1 := by
    constructor <;> nlinarith [hout.1, hout.2, hcc1, hcc2, havg0, havg1]
  have := roundTo2_pos_le_one _ key.1 key.2
  simpa [calculate_confidence, hne, hndef] using this

/-- Witness for `calculate_confidence_spec` on a concrete one-element
survivor list of similarity `1/2`. -/
theorem calculate_confidence_spec_witness :
    ([⟨"r1", "a1", "s", "success", none, [], [], 1 / 2⟩] : List RelatedRun) ≠ [] ∧
      (∀ r ∈ ([⟨"r1", "a1", "s", "success", none, [], [], 1 / 2⟩] : List RelatedRun),
        0 ≤ r.similarity_score ∧ r.similarity_score ≤ 1) ∧
      (0 < calculate_confidence [⟨"r1", "a1", "s", "success", none, [], [], 1 / 2⟩] ∧
        calculate_confidence [⟨"r1", "a1", "s", "success", none, [], [], 1 / 2⟩] ≤ 1) := by
  refine ⟨by simp, ?_, ?_⟩
  · intro r hr
    simp only [List.mem_singleton] at hr
    subst hr
    norm_num
  · exact (calculate_confidence_spec _ (by simp)
      (by intro r hr; simp only [List.mem_singleton] at hr; subst hr; norm_num)).2.2

theorem bestFold_snd_mono (τ : ℝ) (qe : Vec) :
    ∀ (l : List TaskNode) (acc : Option String × ℝ),
      acc.2 ≤ (l.foldl (bestStep τ qe) acc).2 := by
  intro l
  induction l with
  | nil => intro acc; simp
  | cons t ts ih =>
    intro acc
    have hstep : acc.2 ≤ (bestStep τ qe acc t).2 := by
      unfold bestStep
      cases hso : simOf qe t with
      | none => simp
      | some s =>
        by_cases hc : τ ≤ s ∧ acc.2 < s
        · simp [hc]; exact le_of_lt hc.2
        · simp [hc]
    calc acc.2 ≤ (bestStep τ qe acc t).2 := hstep
      _ ≤ ((ts).foldl (bestStep τ qe) (bestStep τ qe acc t)).2 := ih _

theorem bestFold_dominates (τ : ℝ) (qe : Vec) :
    ∀ (l : List TaskNode) (acc : Option String × ℝ) (t : TaskNode) (s : ℝ),
      t ∈ l → simOf qe t = some s → τ ≤ s →
      s ≤ (l.foldl (bestStep τ qe) acc).2 := by
  intro l
  induction l with
  | nil => intro acc t s ht; exact absurd ht (List.not_mem_nil t)
  | cons hd ts ih =>
    intro acc t s ht hsim hτ
    rw [List.foldl_cons]
    rcases List.mem_cons.mp ht with h | hmem
    · -- the qualifying task is the head: after its step the accumulator is ≥ s
      have hsim' : simOf qe hd = some s := h ▸ hsim
      have hstep : s ≤ (bestStep τ qe acc hd).2 := by
        unfold bestStep
        rw [hsim']
        by_cases hc : τ ≤ s ∧ acc.2 < s
        · simp [hc]
        · have hle : s ≤ acc.2 := by
            by_contra hlt
            exact hc ⟨hτ, lt_of_not_le hlt⟩
          simpa [hc] using hle
      exact le_trans hstep (bestFold_snd_mono τ qe ts _)
    · exact ih _ t s hmem hsim hτ

theorem bestFold_some_stays (τ : ℝ) (qe : Vec) :
    ∀ (l : List TaskNode) (acc : Option String × ℝ),
      acc.1.isSome = true → ((l.foldl (bestStep τ qe) acc).1).isSome = true := by
  intro l
  induction l with
  | nil => intro acc h; simpa using h
  | cons t ts ih =>
    intro acc h
    apply ih
    unfold bestStep
    cases hso : simOf qe t with
    | none => simpa using h
    | some s =>
      by_cases hc : τ ≤ s ∧ acc.2 < s
      · simp [hc]
      · simpa [hc] using h

theorem bestStep_cases (τ : ℝ) (qe : Vec) (acc : Option String × ℝ) (hd : TaskNode) :
    bestStep τ qe acc hd = acc ∨
      ∃ s', simOf qe hd = some s' ∧ τ ≤ s' ∧ acc.2 < s' ∧
        bestStep τ qe acc hd = (some hd.id, s') := by
  unfold bestStep
  cases hso : simOf qe hd with
  | none => left; rfl
  | some s' =>
    by_cases hc : τ ≤ s' ∧ acc.2 < s'
    · right; exact ⟨s', rfl, hc.1, hc.2, by simp [hc]⟩
    · left; simp [hc]

theorem bestFold_exists_some (τ : ℝ) (qe : Vec) :
    ∀ (l : List TaskNode) (acc : Option String × ℝ),
      (∃ t ∈ l, ∃ s, simOf qe t = some s ∧ τ ≤ s ∧ acc.2 < s) →
      ((l.foldl (bestStep τ qe) acc).1).isSome = true := by
  intro l
  induction l with
  | nil => intro acc h; rcases h with ⟨t, ht, _⟩; exact absurd ht (List.not_mem_nil t)
  | cons hd ts ih =>
    intro acc h
    rcases h with ⟨t, ht, s, hsim, hτ, hgt⟩
    rw [List.foldl_cons]
    rcases bestStep_cases τ qe acc hd with hkeep | ⟨s', _, _, _, hinst⟩
    · rcases List.mem_cons.mp ht with heq | hmem
      · -- head qualifies and beats the accumulator, so the step cannot keep acc
        have hsim' : simOf qe hd = some s := heq ▸ hsim
        exfalso
        have : bestStep τ qe acc hd = (some hd.id, s) := by
          unfold bestStep
          rw [hsim']
          simp [hτ, hgt]
        rw [hkeep] at this
        have hlt : acc.2 < s := hgt
        rw [this] at hlt
        exact lt_irrefl s hlt
      · rw [hkeep]
        exact ih acc ⟨t, hmem, s, hsim, hτ, hgt⟩
    · rw [hinst]
      exact bestFold_some_stays τ qe ts _ (by simp)

theorem bestFold_source (τ : ℝ) (qe : Vec) :
    ∀ (l : List TaskNode) (acc : Option String × ℝ),
      (l.foldl (bestStep τ qe) acc) = acc ∨
      ∃ t ∈ l, ∃ s, simOf qe t = some s ∧ τ ≤ s ∧
        (l.foldl (bestStep τ qe) acc).1 = some t.id ∧
        (l.foldl (bestStep τ qe) acc).2 = s := by
  intro l
  induction l with
  | nil => intro acc; left; rfl
  | cons hd ts ih =>
    intro acc
    rw [List.foldl_cons]
    rcases bestStep_cases τ qe acc hd with hkeep | ⟨s', hso, hτ', _, hinst⟩
    · rw [hkeep]
      rcases ih acc with h2 | ⟨t, ht, s, h1, h2, h3, h4⟩
      · left; exact h2
      · right; exact ⟨t, List.mem_cons_of_mem hd ht, s, h1, h2, h3, h4⟩
    · rw [hinst]
      rcases ih (some hd.id, s') with h2 | ⟨t, ht, s, h1, h2, h3, h4⟩
      · right
        refine ⟨hd, List.mem_cons_self hd ts, s', hso, hτ', ?_, ?_⟩
        · rw [h2]
        · rw [h2]
      · right; exact ⟨t, List.mem_cons_of_mem hd ht, s, h1, h2, h3, h4⟩

/-- C7: with a positive dedup threshold `τ`, `_upsert_task` reuses an existing
Task id iff some stored Task with a same-dimension embedding reaches cosine
similarity `≥ τ` against the new task embedding; in that case the returned id
belongs to a task attaining the best qualifying similarity; otherwise it
returns the content-derived new id `gen task_text`. -/
theorem upsert_task_dedup (τ : ℝ) (hτ : 0 < τ) (gen : String → String)
    (tasks : List TaskNode) (text : String) (qe : Vec) :
    ((upsert_task τ gen tasks text qe).2 = false ↔
      ∃ t ∈ tasks, ∃ s, simOf qe t = some s ∧ τ ≤ s) ∧
    ((upsert_task τ gen tasks text qe).2 = false →
      ∃ t ∈ tasks, ∃ s, simOf qe t = some s ∧ τ ≤ s ∧
        (upsert_task τ gen tasks text qe).1 = t.id ∧
        ∀ t' ∈ tasks, ∀ s', simOf qe t' = some s' → τ ≤ s' → s' ≤ s) ∧
    ((upsert_task τ gen tasks text qe).2 = true →
      (upsert_task τ gen tasks text qe).1 = gen text) := by
  have hsrc := bestFold_source τ qe tasks (none, 0)
  constructor
  · constructor
    · intro hfalse
      rcases hsrc with h | ⟨t, ht, s, h1, h2, _, _⟩
      · exfalso
        simp [upsert_task, bestTaskMatch, h] at hfalse
      · exact ⟨t, ht, s, h1, h2⟩
    · intro ⟨t, ht, s, h1, h2⟩
      have hex : ((bestTaskMatch τ qe tasks).1).isSome = true := by
        apply bestFold_exists_some τ qe tasks (none, 0)
        exact ⟨t, ht, s, h1, h2, lt_of_lt_of_le hτ h2⟩
      cases hbm : (bestTaskMatch τ qe tasks).1 with
      | none => rw [hbm] at hex; simp at hex
      | some tid => simp [upsert_task, hbm]
  · constructor
    · intro hfalse
      rcases hsrc with h | ⟨t, ht, s, h1, h2, h3, h4⟩
      · exfalso
        simp [upsert_task, bestTaskMatch, h] at hfalse
      · refine ⟨t, ht, s, h1, h2, ?_, ?_⟩
        · have h3' : (bestTaskMatch τ qe tasks).1 = some t.id := h3
          simp [upsert_task, h3']
        · intro t' ht' s' hs' hτ'
          have hdom := bestFold_dominates τ qe tasks (none, 0) t' s' ht' hs' hτ'
          rw [h4] at hdom
          exact hdom
    · intro htrue
      cases hbm : (bestTaskMatch τ qe tasks).1 with
      | none => simp [upsert_task, hbm]
      | some tid => simp [upsert_task, hbm] at htrue

/-- Witness for `upsert_task_dedup`: threshold `0.85`, one stored task whose
embedding dimension differs from the query embedding, so a new Task id is
created. -/
theorem upsert_task_dedup_witness :
    (0 : ℝ) < 0.85 ∧
      (((upsert_task 0.85 (fun s => String.append "task_" s)
          [⟨"t0", "old", some [1, 2]⟩] "newtask" [3]).2 = false ↔
        ∃ t ∈ ([⟨"t0", "old", some [1, 2]⟩] : List TaskNode), ∃ s,
          simOf [3] t = some s ∧ (0.85 : ℝ) ≤ s) ∧
      ((upsert_task 0.85 (fun s => String.append "task_" s)
          [⟨"t0", "old", some [1, 2]⟩] "newtask" [3]).2 = false →
        ∃ t ∈ ([⟨"t0", "old", some [1, 2]⟩] : List TaskNode), ∃ s,
          simOf [3] t = some s ∧ (0.85 : ℝ) ≤ s ∧
          (upsert_task 0.85 (fun s => String.append "task_" s)
            [⟨"t0", "old", some [1, 2]⟩] "newtask" [3]).1 = t.id ∧
          ∀ t' ∈ ([⟨"t0", "old", some [1, 2]⟩] : List TaskNode), ∀ s',
            simOf [3] t' = some s' → (0.85 : ℝ) ≤ s' → s' ≤ s) ∧
      ((upsert_task 0.85 (fun s => String.append "task_" s)
          [⟨"t0", "old", some [1, 2]⟩] "newtask" [3]).2 = true →
        (upsert_task 0.85 (fun s => String.append "task_" s)
          [⟨"t0", "old", some [1, 2]⟩] "newtask" [3]).1 =
          (fun s => String.append "task_" s) "newtask")) :=
  ⟨by norm_num,
    upsert_task_dedup 0.85 (by norm_num) (fun s => String.append "task_" s)
      [⟨"t0", "old", some [1, 2]⟩] "newtask" [3]⟩

theorem npNorm_single (x : ℝ) : npNorm [x] = |x| := by
  simp [npNorm, Real.sqrt_sq_eq_abs]

theorem cosine_one_one : cosine_similarity [1] [1] = some 1 := by
  have h : npNorm [(1 : ℝ)] = 1 := by rw [npNorm_single]; norm_num
  simp [cosine_similarity, h, pyDiv, dot]

theorem cosine_one_negOne : cosine_similarity [1] [-1] = some (-1) := by
  have h1 : npNorm [(1 : ℝ)] = 1 := by rw [npNorm_single]; norm_num
  have h2 : npNorm [(-1 : ℝ)] = 1 := by rw [npNorm_single]; norm_num
  simp [cosine_similarity, h1, h2, pyDiv, dot]

/-- C5: whenever the LLM call raises, or its output is unparseable after all
fallbacks, `_llm_judge` returns decision ADD with a reason string naming the
error, instead of propagating the failure. -/
theorem llm_judge_fail_open (parse : String → Except String ParsedDecision)
    (sruns : List SimilarRun) :
    (∀ e : String,
      (llm_judge (.error e) parse sruns).decision = "ADD" ∧
      (llm_judge (.error e) parse sruns).reason =
        "Error calling LLM: " ++ e ++ ". Defaulting to ADD.") ∧
    (∀ raw e : String, parse raw = .error e →
      (llm_judge (.ok raw) parse sruns).decision = "ADD" ∧
      (llm_judge (.ok raw) parse sruns).reason =
        "Error in LLM decision: " ++ e ++ ". Defaulting to ADD.") := by
  constructor
  · intro e
    exact ⟨rfl, rfl⟩
  · intro raw e hp
    constructor <;> simp [llm_judge, hp]

/-- Witness for `llm_judge_fail_open`: a parse chain that always raises, at a
concrete raw response. -/
theorem llm_judge_fail_open_witness :
    ((fun _ : String => (Except.error "unbalanced braces" :
        Except String ParsedDecision)) "~~~" = .error "unbalanced braces") ∧
      ((llm_judge (.ok "~~~")
          (fun _ => .error "unbalanced braces") []).decision = "ADD" ∧
        (llm_judge (.ok "~~~")
          (fun _ => .error "unbalanced braces") []).reason =
          "Error in LLM decision: " ++ "unbalanced braces" ++ ". Defaulting to ADD.") :=
  ⟨rfl, (llm_judge_fail_open (fun _ => .error "unbalanced braces") []).2
    "~~~" "unbalanced braces" rfl⟩

/-- C4: every call of the `/retrieve_all` handler raises `TypeError`, because
`api.py` passes `user_id=` to `MemoryRetrieval.retrieve_all`, whose signature
accepts only `agent_id` and `limit`; no row (with or without `reason_added`)
is ever produced. -/
theorem retrieve_all_endpoint_type_error :
    api_retrieve_all gPartition (some "user_001") (some "A") (some 5) =
      .error (("TypeError: retrieve_all() got an unexpected keyword argument " ++
        "user_id; handler arguments were user_id=") ++
        ("user_001" ++ ", agent_id=" ++ "A")) ∧
    "user_id" ∈ retrieve_all_call_kwargs ∧
    "user_id" ∉ retrieve_all_accepted_kwargs := by
  refine ⟨rfl, by decide, by decide⟩

theorem filter_swap {α : Type} (p q : α → Bool) (l : List α) :
    (l.filter q).filter p = (l.filter p).filter q := by
  induction l with
  | nil => rfl
  | cons a as ih =>
    by_cases hp : p a <;> by_cases hq : q a <;>
      simp [List.filter_cons, hp, hq, ih]

theorem filterMap_filter_of_none {α β : Type} (f : α → Option β) (p : α → Bool)
    (h : ∀ x, p x = false → f x = none) (l : List α) :
    (l.filter p).filterMap f = l.filterMap f := by
  induction l with
  | nil => rfl
  | cons a as ih =>
    cases hp : p a with
    | true => simp [List.filter_cons, hp, List.filterMap_cons, ih]
    | false => simp [List.filter_cons, hp, List.filterMap_cons, ih, h a hp]

theorem mem_insertDescBy {α : Type} (key : α → ℝ) (x a : α) (l : List α) :
    a ∈ insertDescBy key x l ↔ a = x ∨ a ∈ l := by
  induction l with
  | nil => simp [insertDescBy]
  | cons y ys ih =>
    unfold insertDescBy
    by_cases hc : key x < key y
    · simp only [if_pos hc, List.mem_cons, ih]
      tauto
    · simp only [if_neg hc, List.mem_cons]

theorem mem_sortDescBy {α : Type} (key : α → ℝ) (a : α) (l : List α) :
    a ∈ sortDescBy key l ↔ a ∈ l := by
  induction l with
  | nil => simp [sortDescBy]
  | cons y ys ih =>
    unfold sortDescBy
    rw [mem_insertDescBy]
    simp [ih]

theorem runSim_none_mismatch (qe : Vec) (r : RunNode)
    (h : sameDimB qe r = false) : runSim qe r = none := by
  unfold sameDimB at h
  unfold runSim
  cases hemb : r.embedding with
  | none => rfl
  | some e =>
    rw [hemb] at h
    have hne : e.length ≠ qe.length := by simpa using h
    simp [hne]

theorem dlSim_none_mismatch (g : Graph) (qe : Vec) (r : RunNode)
    (h : sameDimB qe r = false) : dlSim g qe r = none := by
  unfold sameDimB at h
  unfold dlSim
  cases hemb : r.embedding with
  | none => rfl
  | some e =>
    rw [hemb] at h
    have hne : e.length ≠ qe.length := by simpa using h
    simp [hne]

theorem dlCandidatesNoUser_dropMismatched (g : Graph) (qe : Vec)
    (aid : Option String) :
    dlCandidatesNoUser (dropMismatched qe g) aid =
      (dlCandidatesNoUser g aid).filter (sameDimB qe) := by
  cases aid with
  | none => exact filter_swap _ _ _
  | some a =>
    simp only [dlCandidatesNoUser]
    by_cases ha : a = ""
    · rw [if_pos ha, if_pos ha]
      exact filter_swap _ _ _
    · rw [if_neg ha, if_neg ha]
      exact filter_swap _ _ _

theorem dlCandidates_dropMismatched (g : Graph) (qe : Vec)
    (uid aid : Option String) :
    dlCandidates (dropMismatched qe g) uid aid =
      (dlCandidates g uid aid).filter (sameDimB qe) := by
  cases uid with
  | none => exact dlCandidatesNoUser_dropMismatched g qe aid
  | some u =>
    simp only [dlCandidates]
    by_cases hu : u = ""
    · rw [if_pos hu, if_pos hu]
      exact dlCandidatesNoUser_dropMismatched g qe aid
    · rw [if_neg hu, if_neg hu]
      exact filter_swap _ _ _

theorem dlCandidatesNoUser_subset (g : Graph) (aid : Option String) (r : RunNode)
    (h : r ∈ dlCandidatesNoUser g aid) : r ∈ g.runs := by
  cases aid with
  | none => exact List.mem_of_mem_filter h
  | some a =>
    simp only [dlCandidatesNoUser] at h
    by_cases ha : a = ""
    · rw [if_pos ha] at h; exact List.mem_of_mem_filter h
    · rw [if_neg ha] at h; exact List.mem_of_mem_filter h

theorem dlCandidates_subset (g : Graph) (uid aid : Option String) (r : RunNode)
    (h : r ∈ dlCandidates g uid aid) : r ∈ g.runs := by
  cases uid with
  | none => exact dlCandidatesNoUser_subset g aid r h
  | some u =>
    simp only [dlCandidates] at h
    by_cases hu : u = ""
    · rw [if_pos hu] at h
      exact dlCandidatesNoUser_subset g aid r h
    · rw [if_neg hu] at h
      exact List.mem_of_mem_filter h

/-- C8: both similarity scans silently skip stored embeddings whose dimension
differs from the query embedding: removing every mismatched run from the
store changes neither scan result, and every returned candidate corresponds
to a stored run whose embedding has the query dimension. -/
theorem scans_skip_dimension_mismatch (g : Graph) (qe : Vec) (k : Nat)
    (aid uid : Option String) :
    (vector_search_runs (dropMismatched qe g) qe k aid =
      vector_search_runs g qe k aid) ∧
    (∀ pr ∈ vector_search_runs g qe k aid,
      ∃ r ∈ g.runs, r.id = pr.1 ∧ ∃ e, r.embedding = some e ∧
        e.length = qe.length) ∧
    (find_similar_runs (dropMismatched qe g) qe k aid uid =
      find_similar_runs g qe k aid uid) ∧
    (∀ sr ∈ find_similar_runs g qe k aid uid,
      ∃ r ∈ g.runs, r.id = sr.run_id ∧ ∃ e, r.embedding = some e ∧
        e.length = qe.length) := by
  refine ⟨?_, ?_, ?_, ?_⟩
  · unfold vector_search_runs dropMismatched
    have h1 : ((g.runs.filter (sameDimB qe)).filter (vsrKeep aid)) =
        ((g.runs.filter (vsrKeep aid)).filter (sameDimB qe)) := filter_swap _ _ _
    simp only [h1]
    rw [filterMap_filter_of_none (runSim qe) (sameDimB qe)
      (fun r hr => runSim_none_mismatch qe r hr)]
  · intro pr hpr
    unfold vector_search_runs at hpr
    have h1 := List.mem_of_mem_take hpr
    have h2 := (mem_sortDescBy _ _ _).mp h1
    rcases List.mem_filterMap.mp h2 with ⟨r, hr, hsim⟩
    have hrg : r ∈ g.runs := List.mem_of_mem_filter hr
    unfold runSim at hsim
    cases hemb : r.embedding with
    | none => rw [hemb] at hsim; simp at hsim
    | some e =>
      rw [hemb] at hsim
      simp only [Option.some_bind] at hsim
      by_cases hlen : e.length = qe.length
      · rw [if_pos hlen] at hsim
        rcases Option.map_eq_some'.mp hsim with ⟨s, _, hps⟩
        exact ⟨r, hrg, by rw [← hps], e, hemb, hlen⟩
      · rw [if_neg hlen] at hsim
        exact absurd hsim (by simp)
  · unfold find_similar_runs
    have hfn : dlSim (dropMismatched qe g) qe = dlSim g qe := rfl
    rw [dlCandidates_dropMismatched, hfn,
      filterMap_filter_of_none (dlSim g qe) (sameDimB qe)
        (fun r hr => dlSim_none_mismatch g qe r hr)]
  · intro sr hsr
    unfold find_similar_runs at hsr
    have h1 := List.mem_of_mem_take hsr
    have h2 := (mem_sortDescBy _ _ _).mp h1
    rcases List.mem_filterMap.mp h2 with ⟨r, hr, hsim⟩
    have hrg : r ∈ g.runs := dlCandidates_subset g uid aid r hr
    unfold dlSim at hsim
    cases hemb : r.embedding with
    | none => rw [hemb] at hsim; simp at hsim
    | some e =>
      rw [hemb] at hsim
      simp only [Option.some_bind] at hsim
      by_cases hlen : e.length = qe.length
      · rw [if_pos hlen] at hsim
        cases hcs : cosine_similarity qe e with
        | none => rw [hcs] at hsim; simp at hsim
        | some s =>
          rw [hcs] at hsim
          simp only [Option.some_bind] at hsim
          by_cases hth : (0.7 : ℝ) ≤ s
          · rw [if_pos hth] at hsim
            have : sr = mkSimilarRun g r s := by
              have := Option.some.inj hsim
              exact this.symm
            exact ⟨r, hrg, by rw [this]; rfl, e, hemb, hlen⟩
          · rw [if_neg hth] at hsim
            exact absurd hsim (by simp)
      · rw [if_neg hlen] at hsim
        exact absurd hsim (by simp)

theorem vsr_gMix_eval : vector_search_runs gMix [1] 5 (some "A") = [("r1", 1)] := by
  simp [vector_search_runs, gMix, r1Node, rBadNode, vsrKeep, isActive, runSim,
    cosine_one_one, sortDescBy, insertDescBy]

/-- Witness for `scans_skip_dimension_mismatch`: the store `gMix` holds r1 at
dimension 1 and rbad at dimension 2; a dimension-1 query returns exactly r1,
unchanged when rbad is dropped. -/
theorem scans_skip_dimension_mismatch_witness :
    (("r1", (1 : ℝ)) ∈ vector_search_runs gMix [1] 5 (some "A")) ∧
      (∃ r ∈ gMix.runs, r.id = ("r1", (1 : ℝ)).1 ∧ ∃ e, r.embedding = some e ∧
        e.length = ([1] : Vec).length) ∧
      vector_search_runs (dropMismatched [1] gMix) [1] 5 (some "A") =
        vector_search_runs gMix [1] 5 (some "A") := by
  have hm : ("r1", (1 : ℝ)) ∈ vector_search_runs gMix [1] 5 (some "A") := by
    rw [vsr_gMix_eval]
    exact List.mem_singleton.mpr rfl
  exact ⟨hm,
    (scans_skip_dimension_mismatch gMix [1] 5 (some "A") (some "u1")).2.1 _ hm,
    (scans_skip_dimension_mismatch gMix [1] 5 (some "A") (some "u1")).1⟩

theorem vsr_gPartition_eval :
    vector_search_runs gPartition [1] 5 (some "A") = [("r1", 1)] := by
  simp [vector_search_runs, gPartition, r1Node, vsrKeep, isActive, runSim,
    cosine_one_one, sortDescBy, insertDescBy]

/-- C1: retrieval does not apply the (user_id, agent_id) partition rule of the
decision layer: with r1 stored under `(u1, A)`, a retrieve call issued with
`user_id = u2` and `agent_id = A` still returns r1 among the related runs
(the request's `user_id` is never consulted by `retrieve`). -/
theorem retrieve_crosses_user_partition :
    gPartition.hasAgent = [("u1", "A")] ∧
    reqU2A.user_id = some "u2" ∧ reqU2A.agent_id = some "A" ∧
    ((retrieve (fun _ => [1]) gPartition reqU2A).related_runs.map
      fun r => r.run_id) = ["r1"] := by
  refine ⟨rfl, rfl, rfl, ?_⟩
  have hstep : (retrieve (fun _ => [1]) gPartition reqU2A).related_runs =
      (vector_search_runs gPartition [1] 5 (some "A")).filterMap (fun p =>
        (expand_run gPartition p.1).map fun ex =>
          ({ run_id := ex.run_id, agent_id := ex.agent_id, summary := ex.summary,
             outcome := ex.outcome, run_tree := ex.run_tree,
             references := ex.references, artifacts := ex.artifacts,
             similarity_score := p.2 } : RelatedRun)) := rfl
  rw [hstep, vsr_gPartition_eval]
  simp [expand_run, gPartition, r1Node, runRefItems, runArtItems,
    run_details_outcome]

theorem vsr_gNeg_eval : vector_search_runs gNeg [1] 5 none = [("rneg", -1)] := by
  simp [vector_search_runs, gNeg, rNegNode, vsrKeep, isActive, runSim,
    cosine_one_negOne, sortDescBy, insertDescBy]

/-- C6 (counterexample): a retrieve call whose single survivor has cosine
similarity −1 yields confidence −0.24, so the claimed range (0, 1] for
non-empty survivor lists fails (the formula itself is still obeyed). -/
theorem confidence_range_counterexample :
    (retrieve (fun _ => [1]) gNeg reqNeg).related_runs.length = 1 ∧
    (retrieve (fun _ => [1]) gNeg reqNeg).confidence = -(6 / 25) ∧
    ¬ (0 < (retrieve (fun _ => [1]) gNeg reqNeg).confidence) := by
  have hstep : (retrieve (fun _ => [1]) gNeg reqNeg).related_runs =
      (vector_search_runs gNeg [1] 5 none).filterMap (fun p =>
        (expand_run gNeg p.1).map fun ex =>
          ({ run_id := ex.run_id, agent_id := ex.agent_id, summary := ex.summary,
             outcome := ex.outcome, run_tree := ex.run_tree,
             references := ex.references, artifacts := ex.artifacts,
             similarity_score := p.2 } : RelatedRun)) := rfl
  have hrel : (retrieve (fun _ => [1]) gNeg reqNeg).related_runs =
      [⟨"rneg", "A", "opposite direction", "failure", none, [], [], -1⟩] := by
    rw [hstep, vsr_gNeg_eval]
    simp [expand_run, gNeg, rNegNode, runRefItems, runArtItems,
      run_details_outcome]
  have hconf : (retrieve (fun _ => [1]) gNeg reqNeg).confidence =
      calculate_confidence ((retrieve (fun _ => [1]) gNeg reqNeg).related_runs) :=
    rfl
  have hmin : min ((1 : ℝ) / 5) 1 = 1 / 5 := min_eq_left (by norm_num)
  have h24 : ((-24 : ℤ) : ℝ) / 100 = -(6 / 25) := by norm_num
  have hround : roundTo2 (-(6 / 25)) = -(6 / 25) := by
    rw [← h24, roundTo2_int_div, h24]
  have hne : ([⟨"rneg", "A", "opposite direction", "failure", none, [], [], -1⟩]
      : List RelatedRun) ≠ [] := by simp
  have hval : calculate_confidence
      [⟨"rneg", "A", "opposite direction", "failure", none, [], [], -1⟩] =
      -(6 / 25) := by
    rw [← hround]
    simp only [calculate_confidence]
    rw [if_neg hne]
    congr 1
    simp [hmin]
    have hout : (["failure"] : List String).eraseDups.length = 1 := rfl
    rw [if_pos hout]
    norm_num
  refine ⟨by rw [hrel]; rfl, by rw [hconf, hrel, hval],
    by rw [hconf, hrel, hval]; norm_num⟩

/-- C2: on a REPLACE ingestion the builder issues the supersede mutation
before it creates the new Run node: in the mutation trace the
`markSuperseded` index precedes the `mergeRunNode` index, and the
intermediate store right after the supersede has r1 superseded while r2 does
not exist yet. -/
theorem replace_supersedes_before_create :
    (((process_run 0.85 genTaskId gPartition p2Replace [1, 1] "sum" "because"
        [1] [] [] dReplaceR1).2.findIdx Eff.isMarkSup <
      (process_run 0.85 genTaskId gPartition p2Replace [1, 1] "sum" "because"
        [1] [] [] dReplaceR1).2.findIdx Eff.isMergeRunNode) ∧
    ((process_run 0.85 genTaskId gPartition p2Replace [1, 1] "sum" "because"
        [1] [] [] dReplaceR1).2.findIdx Eff.isMergeRunNode <
      (process_run 0.85 genTaskId gPartition p2Replace [1, 1] "sum" "because"
        [1] [] [] dReplaceR1).2.length)) ∧
    (((applyTrace gPartition
        ((process_run 0.85 genTaskId gPartition p2Replace [1, 1] "sum" "because"
          [1] [] [] dReplaceR1).2.take
          ((process_run 0.85 genTaskId gPartition p2Replace [1, 1] "sum" "because"
            [1] [] [] dReplaceR1).2.findIdx Eff.isMarkSup + 1))).runs.find?
        (fun r => r.id == "r1")).map (fun r => (r.status, r.superseded_by)) =
      some (some "superseded", some "r2")) ∧
    ((applyTrace gPartition
        ((process_run 0.85 genTaskId gPartition p2Replace [1, 1] "sum" "because"
          [1] [] [] dReplaceR1).2.take
          ((process_run 0.85 genTaskId gPartition p2Replace [1, 1] "sum" "because"
            [1] [] [] dReplaceR1).2.findIdx Eff.isMarkSup + 1))).runs.find?
        (fun r => r.id == "r2")).isNone = true := by
  decide

/-- C3: after ingesting r1, replacing it by r2, and re-ingesting run id r1
with an ADD decision, the Run r1 ends with `status = active` while its stale
`superseded_by = r2` remains, so the invariant
`status = superseded ⇔ superseded_by ≠ null` is violated. -/
theorem reingest_breaks_superseded_invariant :
    ((gInv3.runs.find? fun r => r.id == "r1").map
      fun r => (r.status, r.superseded_by)) = some (some "active", some "r2") ∧
    ∃ r ∈ gInv3.runs, ¬ supersededInv r := by
  have h1 : ((gInv3.runs.find? fun r => r.id == "r1").map
      fun r => (r.status, r.superseded_by)) = some (some "active", some "r2") := by
    decide
  refine ⟨h1, ?_⟩
  cases hf : gInv3.runs.find? fun r => r.id == "r1" with
  | none => rw [hf] at h1; simp at h1
  | some r =>
    rw [hf] at h1
    simp only [Option.map_some'] at h1
    have hr := Option.some.inj h1
    rw [Prod.mk.injEq] at hr
    obtain ⟨hs, hsb⟩ := hr
    refine ⟨r, List.mem_of_find?_eq_some hf, ?_⟩
    unfold supersededInv
    rw [hs, hsb]
    simp

/-- C9 (counterexample): a NOT-decided ingestion naming a fresh user still
persists more than the MemoryDecision: the User node, the HAS_AGENT edge
`(u2, a1)` and a Task node are created for that payload. -/
theorem not_decision_persists_hasagent_edge :
    (("u2", "a1") ∉ gNot.hasAgent) ∧ gNot.tasks.length = 0 ∧
    (("u2", "a1") ∈ (applyTrace gNot
      (process_run 0.85 genTaskId gNot pNot [1, 1] "s" "ra" [1] [] []
        dNot).2).hasAgent) ∧
    (applyTrace gNot
      (process_run 0.85 genTaskId gNot pNot [1, 1] "s" "ra" [1] [] []
        dNot).2).tasks.length = 1 := by
  decide

theorem step0_pre (p : Payload) (e : Eff) (he : e ∈ step0Effs p) :
    Eff.isPreDecision e = true := by
  unfold step0Effs at he
  cases h : uidOptOf p with
  | none =>
    rw [h] at he
    simp only [List.nil_append, List.append_nil, List.mem_singleton] at he
    subst he; rfl
  | some u =>
    rw [h] at he
    simp only [List.cons_append, List.nil_append, List.mem_cons,
      List.mem_singleton, List.not_mem_nil, or_false] at he
    rcases he with rfl | rfl | rfl <;> rfl

/-- C9 (amended): when the decision is NOT (and the payload has task text),
the only mutations are the pre-decision User/Agent/HAS_AGENT/Task upserts
plus the MemoryDecision merge — no Run, Reference or Artifact node and no
Run-incident edge — and the result carries the decision, reason, similarity
score and the top similar runs of the decision record (the latter subject to
the source's `if decision.similar_runs:` truthiness, which drops an empty
list). -/
theorem process_run_not_frame (τ : ℝ) (gen : String → String) (g : Graph)
    (p : Payload) (taskEmb : Vec) (summary ra0 : String) (semb : Vec)
    (refs : List RefItem) (arts : List ArtItem) (d : MemoryDecision)
    (hd : d.decision = "NOT") (ht : ¬ p.task_text = "") :
    (∀ e ∈ (process_run τ gen g p taskEmb summary ra0 semb refs arts d).2,
      Eff.isPreDecision e = true ∨ e = Eff.mergeDecision d) ∧
    Eff.mergeDecision d ∈
      (process_run τ gen g p taskEmb summary ra0 semb refs arts d).2 ∧
    (process_run τ gen g p taskEmb summary ra0 semb refs arts d).1.success = true ∧
    (process_run τ gen g p taskEmb summary ra0 semb refs arts d).1.decision = "NOT" ∧
    (process_run τ gen g p taskEmb summary ra0 semb refs arts d).1.reason =
      some d.reason ∧
    (process_run τ gen g p taskEmb summary ra0 semb refs arts d).1.similarity_score =
      d.similarity_score ∧
    (process_run τ gen g p taskEmb summary ra0 semb refs arts d).1.similar_runs =
      (match d.similar_runs with
       | some l => if l = [] then none else some l
       | none => none) ∧
    (process_run τ gen g p taskEmb summary ra0 semb refs arts d).1.run_id = none ∧
    (process_run τ gen g p taskEmb summary ra0 semb refs arts d).1.references_count =
      none := by
  simp only [process_run]
  rw [if_neg ht, hd]
  rw [if_pos (show ("NOT" : String) = "NOT" from rfl)]
  refine ⟨?_, ?_, rfl, rfl, rfl, rfl, rfl, rfl, rfl⟩
  · intro e he
    rcases List.mem_append.mp he with h1 | h2
    · rcases List.mem_append.mp h1 with h0 | htk
      · left; exact step0_pre p e h0
      · left
        by_cases hc : (upsert_task τ gen g.tasks p.task_text taskEmb).2
        · rw [if_pos hc] at htk
          simp only [List.mem_singleton] at htk
          subst htk; rfl
        · rw [if_neg hc] at htk
          simp at htk
    · right
      simpa using h2
  · exact List.mem_append_right _ (List.mem_singleton.mpr rfl)

/-- Witness for `process_run_not_frame` at the concrete NOT scenario: the
response also carries the decision's non-empty top-similar-runs list. -/
theorem process_run_not_frame_witness :
    dNot.decision = "NOT" ∧ (¬ pNot.task_text = "") ∧
    (Eff.mergeDecision dNot ∈
      (process_run 0.85 genTaskId gNot pNot [1, 1] "s" "ra" [1] [] [] dNot).2 ∧
     (process_run 0.85 genTaskId gNot pNot [1, 1] "s" "ra" [1] [] []
       dNot).1.decision = "NOT" ∧
     (process_run 0.85 genTaskId gNot pNot [1, 1] "s" "ra" [1] [] []
       dNot).1.reason = some dNot.reason ∧
     (process_run 0.85 genTaskId gNot pNot [1, 1] "s" "ra" [1] [] []
       dNot).1.similar_runs = dNot.similar_runs) := by
  have h := process_run_not_frame 0.85 genTaskId gNot pNot [1, 1] "s" "ra" [1]
    [] [] dNot rfl (by decide)
  have hsr : (process_run 0.85 genTaskId gNot pNot [1, 1] "s" "ra" [1] [] []
      dNot).1.similar_runs = dNot.similar_runs := by
    rw [h.2.2.2.2.2.2.1]
    simp [dNot]
  exact ⟨rfl, by decide, h.2.1, h.2.2.2.1, h.2.2.2.2.1, hsr⟩

end KB
